import Mathlib

/- A shallow embedding of `src/main.py` of the gitlab-airtable-sync
repository.

Python dictionaries are modelled as insertion-ordered association lists with
unique keys: `pyInsert` overwrites an existing key in place (as `d[k] = v`
does in Python) and appends a new key at the end; `pyGet` is `d.get(k)`.
Python/JSON values are modelled by the inductive type `Value`, with
`Value.truthy` reproducing Python truthiness for the cases that occur. The
two network collaborators are modelled by their listings: the downstream
store as a `List AirtableRecord` and the upstream tracker as a function
`issuesOf : Int → List Issue` giving each project's full issue listing. -/

namespace GitlabAirtableSync

/-- JSON/Python values as they flow through the program (issue field values,
Airtable record field values, configuration entries). `vNull` doubles for
Python `None`, which `.get` returns for an absent key. List values carry
string elements, which covers every list the program handles (GitLab label
lists are lists of strings). -/
inductive Value where
  | vNull : Value
  | vBool : Bool → Value
  | vInt : Int → Value
  | vStr : String → Value
  | vList : List String → Value
deriving DecidableEq

/-- Python truthiness on `Value`: `None`, `False`, `0`, `""` and `[]` are
falsy, everything else is truthy. -/
def Value.truthy : Value → Bool
  | .vNull => false
  | .vBool b => b
  | .vInt n => decide (n ≠ 0)
  | .vStr s => decide (s ≠ "")
  | .vList xs => !xs.isEmpty

/-- A GitLab issue as consumed by main.py: the six attributes the field map
reads via `getattr(issue, name)`, with `iid` an integer (the
`issue.iid > import_after` filter on line 109 compares it numerically). -/
structure Issue where
  title : Value
  iid : Int
  web_url : Value
  labels : Value
  weight : Value
  milestone : Value
deriving DecidableEq

/-- `getattr(issue, name)` for the attribute names main.py uses; `none` for
any other name (where Python would raise `AttributeError`, or `TypeError`
when the name is `None`). -/
def Issue.getattr (t : Issue) : String → Option Value
  | "title" => some t.title
  | "iid" => some (.vInt t.iid)
  | "web_url" => some t.web_url
  | "labels" => some t.labels
  | "weight" => some t.weight
  | "milestone" => some t.milestone
  | _ => none

/-- `config['airtable_field_mapping']`: the six `.get(...)` results of lines
30-36. `none` models both an absent key and JSON null, `some ""` an empty
string; both are falsy wherever the code tests `if airtable_field:`. -/
structure FieldMapping where
  title : Option String
  ticket_number : Option String
  url : Option String
  labels : Option String
  weight : Option String
  milestone : Option String
deriving DecidableEq

/-- One entry of `config['gitlab_projects']`: the project id plus the
optional `import_after` floor (line 88). -/
structure ProjectConfig where
  id : Int
  import_after : Option Int
deriving DecidableEq

/-- The configuration surface read at module load (lines 18-42). -/
structure Config where
  airtable_api_key : Value
  airtable_base_id : Value
  airtable_table_id : Value
  gitlab_private_token : Value
  gitlab_projects : List ProjectConfig
  airtable_field_mapping : FieldMapping
  primary_key_selection : Value


/-- Python dict assignment `d[k] = v`: overwrite in place if the key is
present, else append at the end (dicts are insertion-ordered). -/
def pyInsert {α β : Type} [DecidableEq α] : List (α × β) → α → β → List (α × β)
  | [], k, v => [(k, v)]
  | e :: rest, k, v => if e.1 = k then (k, v) :: rest else e :: pyInsert rest k v

/-- Python `d.get(k)`. -/
def pyGet {α β : Type} [DecidableEq α] : List (α × β) → α → Option β
  | [], _ => none
  | e :: rest, k => if e.1 = k then some e.2 else pyGet rest k

/-- `gitlab_to_airtable_field_map` (lines 29-37): the six fixed entries, in
source (insertion) order. -/
def gitlab_to_airtable_field_map (fm : FieldMapping) : List (String × Option String) :=
  [("title", fm.title), ("iid", fm.ticket_number), ("web_url", fm.url),
   ("labels", fm.labels), ("weight", fm.weight), ("milestone", fm.milestone)]

/-- `primary_key_map` (line 39). -/
def primary_key_map : List (String × String) :=
  [("ticket_number", "iid"), ("url", "web_url")]

/-- `gitlab_primary_key = primary_key_map.get(primary_key_selection)`
(line 41): a non-string selection never matches the string keys. -/
def gitlab_primary_key (sel : Value) : Option String :=
  match sel with
  | .vStr s => pyGet primary_key_map s
  | _ => none

/-- `airtable_primary_key = gitlab_to_airtable_field_map.get(gitlab_primary_key)`
(line 42): with `gitlab_primary_key` equal to `None` the `.get` yields
`None`; otherwise the stored mapping value, itself possibly `None`. -/
def airtable_primary_key (fm : FieldMapping) (sel : Value) : Option String :=
  match gitlab_primary_key sel with
  | none => none
  | some gk =>
    match pyGet (gitlab_to_airtable_field_map fm) gk with
    | none => none
    | some v => v

/-- `gitlab_to_airtable_field_map.values()`. -/
def fieldMapValues (fm : FieldMapping) : List (Option String) :=
  (gitlab_to_airtable_field_map fm).map Prod.snd

/-- Lines 44-58: the startup checks, in source order, returning the message
of the `ConfigurationError` that is raised — and then merely logged by the
handler of lines 60-61 — if any. -/
def configCheck (c : Config) : Option String :=
  if c.airtable_api_key.truthy = false then
    some "Missing Airtable api key in config,json"
  else if c.airtable_base_id.truthy = false then
    some "Missing Airtable base id in config,json"
  else if c.airtable_table_id.truthy = false then
    some "Missing Airtable table id/name in config,json."
  else if c.gitlab_private_token.truthy = false then
    some "Missing GitLab private access token in config.json"
  else if c.gitlab_projects.isEmpty then
    some "Missing GitLab project ids in config.json"
  else if (fieldMapValues c.airtable_field_mapping).isEmpty then
    some "Missing GitLab to Airtable field mapping in config.json"
  else if c.primary_key_selection.truthy = false then
    some "Missing primary key in config.json"
  else none

/-- A created record's field dict / one element of the create-list. -/
abbrev RecordData := List (String × Value)

/-- An Airtable record as returned by `table.all()`; the engine reads only
`record['fields']` (real records also carry `id` and `createdTime`, which
the engine never touches). -/
structure AirtableRecord where
  fields : RecordData
deriving DecidableEq

/-- `record['fields'].get(airtable_primary_key)` (line 72); when
`airtable_primary_key` is `None` the string-keyed fields dict yields
`None`. -/
def recordKey (pk : Option String) (r : AirtableRecord) : Option Value :=
  match pk with
  | none => none
  | some k => pyGet r.fields k

/-- Truthiness of the fetched key (`if key:` on line 73): `None` and falsy
values both fail the test. -/
def recordKeyTruthy (pk : Option String) (r : AirtableRecord) : Bool :=
  match recordKey pk r with
  | some v => v.truthy
  | none => false

/-- One iteration of the indexing loop of lines 71-74. -/
def aStep (pk : Option String) (m : List (Value × AirtableRecord)) (r : AirtableRecord) :
    List (Value × AirtableRecord) :=
  match recordKey pk r with
  | some v => if v.truthy then pyInsert m v r else m
  | none => m

/-- `get_airtable_records` (lines 64-78) applied to the fetched listing:
index the records by the value at the configured key field, skipping
records whose key is absent or falsy; a later record with the same key
overwrites an earlier one. -/
def get_airtable_records (pk : Option String) (listing : List AirtableRecord) :
    List (Value × AirtableRecord) :=
  listing.foldl (aStep pk) []

/-- `getattr(ticket, gitlab_primary_key)`: the engine only evaluates this
with `gitlab_primary_key ∈ \x7b"iid", "web_url"\x7d`, where `getattr` is
total, so the `vNull` default is never reached in those runs. -/
def keyOf (gk : String) (t : Issue) : Value :=
  (t.getattr gk).getD Value.vNull

/-- The dict comprehension of line 109: keep issues with
`issue.iid > import_after`, then index by the chosen key, later entries
overwriting earlier ones. -/
def project_issues (gk : String) (floor : Int) (issues : List Issue) :
    List (Value × Issue) :=
  (issues.filter (fun i => floor < i.iid)).foldl
    (fun m i => pyInsert m (keyOf gk i) i) []

/-- The first loop of `get_gitlab_tickets` (lines 87-93): the `projects`
dict, keyed by project id — the collaborator resolves
`project_config['id']` to a project whose `.id` equals it — holding each
entry's `import_after`. -/
def projectsDict (projects : List ProjectConfig) : List (Int × Option Int) :=
  projects.foldl (fun m p => pyInsert m p.id p.import_after) []

/-- `get_gitlab_tickets` (lines 81-116) as a function of the configured
projects and the collaborator's per-project issue listings.
`import_after or 0` (line 105) equals `import_after` for every non-zero
integer and `0` for `None` or `0`, i.e. `Option.getD 0`. -/
def get_gitlab_tickets (gk : String) (projects : List ProjectConfig)
    (issuesOf : Int → List Issue) : List (Int × List (Value × Issue)) :=
  (projectsDict projects).foldl
    (fun m pe => pyInsert m pe.1 (project_issues gk (pe.2.getD 0) (issuesOf pe.1))) []

/-- One iteration of the loop of lines 127-129: a falsy (absent or empty)
downstream name is skipped, otherwise
`record_data[airtable_field] = getattr(gitlab_ticket, gitlab_field)`. -/
def pStep (t : Issue) (rd : RecordData) (e : String × Option String) : RecordData :=
  match e.2 with
  | some s => if s = "" then rd else pyInsert rd s ((t.getattr e.1).getD Value.vNull)
  | none => rd

/-- `parse_ticket_to_record` (lines 125-131). -/
def parse_ticket_to_record (fm : FieldMapping) (t : Issue) : RecordData :=
  (gitlab_to_airtable_field_map fm).foldl (pStep t) []

/-- Truthiness of `airtable_records_map.get(key)` (line 144): a present
record is a non-empty dict, hence truthy; `None` is falsy. -/
def truthyRecordOpt : Option AirtableRecord → Bool
  | some _ => true
  | none => false

/-- One iteration of the inner loop of `sync` (lines 142-145). -/
def iStep (fm : FieldMapping) (gk : String) (arm : List (Value × AirtableRecord))
    (acc : List RecordData) (kt : Value × Issue) : List RecordData :=
  if truthyRecordOpt (pyGet arm (keyOf gk kt.2)) then acc
  else acc ++ [parse_ticket_to_record fm kt.2]

/-- The create-list `airtable_records_to_create` computed by lines 140-145,
as a function of the downstream listing and the upstream snapshot. -/
def missing_records (fm : FieldMapping) (gk : String) (pk : Option String)
    (listing : List AirtableRecord)
    (ticketsByProject : List (Int × List (Value × Issue))) : List RecordData :=
  ticketsByProject.foldl
    (fun acc pt => pt.2.foldl (iStep fm gk (get_airtable_records pk listing)) acc) []

/-- Result of one `sync()` run: the create-list, and whether
`create_airtable_records` was called (lines 147-155). -/
structure SyncResult where
  created : List RecordData
  wrote : Bool
deriving DecidableEq

/-- `sync` (lines 134-155): build both snapshots, compute the create-list,
and call `create_airtable_records` only when `len(...) > 0`. -/
def sync (fm : FieldMapping) (gk : String) (pk : Option String)
    (listing : List AirtableRecord) (projects : List ProjectConfig)
    (issuesOf : Int → List Issue) : SyncResult :=
  let toCreate := missing_records fm gk pk listing (get_gitlab_tickets gk projects issuesOf)
  if toCreate.length > 0 then { created := toCreate, wrote := true }
  else { created := toCreate, wrote := false }

/-- The downstream store after a run: unchanged when no write call is made,
extended by the created records otherwise (a created record's `fields` are
the submitted data). -/
def sync_final_downstream (fm : FieldMapping) (gk : String) (pk : Option String)
    (listing : List AirtableRecord) (projects : List ProjectConfig)
    (issuesOf : Int → List Issue) : List AirtableRecord :=
  let s := sync fm gk pk listing projects issuesOf
  if s.wrote then listing ++ s.created.map AirtableRecord.mk else listing

/-- The loop of `create_airtable_records` (lines 119-122): one
`table.create` call per record, in list order. `ok i` says whether the
`i`-th call succeeds; a raised error aborts the loop and propagates.
Returns the records actually written and whether the loop completed. -/
def createLoop (ok : Nat → Bool) : Nat → List RecordData → List RecordData × Bool
  | _, [] => ([], true)
  | i, r :: rs =>
    if ok i then
      let res := createLoop ok (i + 1) rs
      (r :: res.1, res.2)
    else ([], false)

/-- `create_airtable_records` (lines 119-122). -/
def create_airtable_records (ok : Nat → Bool) (records_to_create : List RecordData) :
    List RecordData × Bool :=
  createLoop ok 0 records_to_create

/-- Observable actions of one module run. -/
inductive Event where
  | logError : String → Event
  | fetchAirtable : Event
  | fetchGitlab : Event
  | createRecord : RecordData → Event
deriving DecidableEq

/-- The module executed as `__main__`, as a trace of events: the startup
`try` only logs a `ConfigurationError` (lines 60-61) and execution
continues into `sync()`, which fetches Airtable, then GitLab, then issues
the create calls. When `gitlab_primary_key` is `None` (unrecognized
selection), `getattr(issue, None)` on line 109 raises `TypeError` — but
only after both fetches, and only if some fetched issue passes the filter.
Returns the trace and the uncaught exception, if any. -/
def moduleMain (c : Config) (listing : List AirtableRecord)
    (issuesOf : Int → List Issue) : List Event × Option String :=
  let pre := match configCheck c with
    | some m => [Event.logError m]
    | none => []
  match gitlab_primary_key c.primary_key_selection with
  | some gk =>
    let s := sync c.airtable_field_mapping gk
      (airtable_primary_key c.airtable_field_mapping c.primary_key_selection)
      listing c.gitlab_projects issuesOf
    (pre ++ [Event.fetchAirtable, Event.fetchGitlab] ++ s.created.map Event.createRecord,
      none)
  | none =>
    if (projectsDict c.gitlab_projects).all
        (fun pe => ((issuesOf pe.1).filter (fun i => pe.2.getD 0 < i.iid)).isEmpty) then
      (pre ++ [Event.fetchAirtable, Event.fetchGitlab], none)
    else
      (pre ++ [Event.fetchAirtable, Event.fetchGitlab], some "TypeError")

/- Concrete instances used to instantiate the theorems below. -/

/-- An issue with ticket number 7. -/
def t7 : Issue := ⟨.vStr "Seven", 7, .vStr "https://gl.example/i/7", .vList [], .vNull, .vNull⟩

/-- An issue with ticket number 3. -/
def t3 : Issue := ⟨.vStr "Three", 3, .vStr "https://gl.example/i/3", .vList [], .vNull, .vNull⟩

/-- An issue with ticket number 9. -/
def t9 : Issue := ⟨.vStr "Nine", 9, .vStr "https://gl.example/i/9", .vList [], .vNull, .vNull⟩

/-- A mapping with distinct downstream names for title, ticket number, url. -/
def fm1 : FieldMapping := ⟨some "Title", some "T", some "URL", none, none, none⟩

/-- A tracker whose every project lists exactly the issue `t7`. -/
def iss1 : Int → List Issue := fun _ => [t7]

/-- A downstream record already holding ticket number 7 in its key field. -/
def rT7 : AirtableRecord := ⟨[("T", .vInt 7)]⟩

/-- A mapping where only the url field is mapped. -/
def fmU : FieldMapping := ⟨none, none, some "URL", none, none, none⟩

/-- An issue whose url — the chosen key under the `url` selection — is the
empty string, a falsy key value. -/
def tEmptyUrl : Issue := ⟨.vNull, 1, .vStr "", .vNull, .vNull, .vNull⟩

/-- A tracker whose every project lists exactly the issue `tEmptyUrl`. -/
def issU : Int → List Issue := fun _ => [tEmptyUrl]

/-- A mapping in which the ticket-number key and the milestone field are
both mapped to the same downstream name `K`. -/
def fmC : FieldMapping := ⟨none, some "K", none, none, none, some "K"⟩

/-- An issue with ticket number 7 and milestone `"M1"`. -/
def tC : Issue := ⟨.vNull, 7, .vNull, .vNull, .vNull, .vStr "M1"⟩

/-- A tracker whose every project lists exactly the issue `tC`. -/
def issC : Int → List Issue := fun _ => [tC]

/-- One project with floor (`import_after`) 5. -/
def projects5 : List ProjectConfig := [⟨1, some 5⟩]

/-- A tracker listing issues 3 and 9 for every project. -/
def iss5 : Int → List Issue := fun _ => [t3, t9]

/-- A configuration whose key selection `"name"` is an unrecognized
literal; every checked value is present and truthy. -/
def cfgBadSel : Config := ⟨.vStr "k", .vStr "b", .vStr "t", .vStr "g", [⟨1, none⟩], fm1, .vStr "name"⟩

/-- A configuration missing the Airtable api key, otherwise valid. -/
def cfgNoKey : Config :=
  ⟨.vNull, .vStr "b", .vStr "t", .vStr "g", [⟨1, none⟩], fm1, .vStr "ticket_number"⟩

/-- A downstream record whose key field holds the empty string. -/
def rEmptyKey : AirtableRecord := ⟨[("T", .vStr "")]⟩

/-- A downstream record whose key field holds the integer 0. -/
def rZeroKey : AirtableRecord := ⟨[("T", .vInt 0)]⟩

/- Association-list (Python dict) lemmas. -/

theorem pyGet_pyInsert_self {α β : Type} [DecidableEq α] (d : List (α × β)) (k : α) (v : β) :
    pyGet (pyInsert d k v) k = some v := by
  induction d with
  | nil => simp [pyInsert, pyGet]
  | cons e rest ih =>
    by_cases h : e.1 = k
    · simp [pyInsert, pyGet, h]
    · simp [pyInsert, pyGet, h, ih]

theorem pyGet_pyInsert_ne {α β : Type} [DecidableEq α] (d : List (α × β)) {k k' : α} (v : β)
    (h : k' ≠ k) : pyGet (pyInsert d k v) k' = pyGet d k' := by
  induction d with
  | nil => simp [pyInsert, pyGet, Ne.symm h]
  | cons e rest ih =>
    by_cases he : e.1 = k
    · subst he
      simp only [pyInsert, if_pos rfl, pyGet]
      rw [if_neg (Ne.symm h), if_neg (Ne.symm h)]
    · simp [pyInsert, pyGet, he, ih]

theorem pyGet_pyInsert_isSome {α β : Type} [DecidableEq α] (d : List (α × β)) (k k' : α) (v : β) :
    (pyGet (pyInsert d k v) k').isSome = true ↔ k' = k ∨ (pyGet d k').isSome = true := by
  by_cases h : k' = k
  · subst h; simp [pyGet_pyInsert_self]
  · simp [pyGet_pyInsert_ne d v h, h]

theorem mem_pyInsert {α β : Type} [DecidableEq α] {d : List (α × β)} {k : α} {v : β}
    {q : α × β} (hq : q ∈ pyInsert d k v) : q ∈ d ∨ q = (k, v) := by
  induction d with
  | nil => simp [pyInsert] at hq; right; exact hq
  | cons e rest ih =>
    by_cases he : e.1 = k
    · rw [pyInsert, if_pos he] at hq
      rcases List.mem_cons.mp hq with h | h
      · right; exact h
      · left; exact List.mem_cons_of_mem _ h
    · rw [pyInsert, if_neg he] at hq
      rcases List.mem_cons.mp hq with h | h
      · left; exact h ▸ List.mem_cons_self _ _
      · rcases ih h with h2 | h2
        · left; exact List.mem_cons_of_mem _ h2
        · right; exact h2

theorem mem_keys_pyInsert {α β : Type} [DecidableEq α] {d : List (α × β)} {k a : α} {v : β}
    (ha : a ∈ (pyInsert d k v).map Prod.fst) : a ∈ d.map Prod.fst ∨ a = k := by
  rw [List.mem_map] at ha
  obtain ⟨q, hq, hfst⟩ := ha
  rcases mem_pyInsert hq with h | h
  · left; rw [List.mem_map]; exact ⟨q, h, hfst⟩
  · right; rw [h] at hfst; exact hfst.symm ▸ rfl

theorem nodupKeys_pyInsert {α β : Type} [DecidableEq α] {d : List (α × β)} (k : α) (v : β)
    (h : (d.map Prod.fst).Nodup) : ((pyInsert d k v).map Prod.fst).Nodup := by
  induction d with
  | nil => simp [pyInsert]
  | cons e rest ih =>
    rw [List.map_cons, List.nodup_cons] at h
    by_cases he : e.1 = k
    · rw [pyInsert, if_pos he]
      rw [List.map_cons, List.nodup_cons]
      exact ⟨he ▸ h.1, h.2⟩
    · rw [pyInsert, if_neg he]
      rw [List.map_cons, List.nodup_cons]
      refine ⟨fun hmem => ?_, ih h.2⟩
      rcases mem_keys_pyInsert hmem with h2 | h2
      · exact h.1 h2
      · exact he h2

theorem pyGet_eq_some_of_mem {α β : Type} [DecidableEq α] {d : List (α × β)}
    (h : (d.map Prod.fst).Nodup) {k : α} {v : β} (hm : (k, v) ∈ d) : pyGet d k = some v := by
  induction d with
  | nil => simp at hm
  | cons e rest ih =>
    rw [List.map_cons, List.nodup_cons] at h
    rcases List.mem_cons.mp hm with h1 | h1
    · rw [← h1]
      simp [pyGet]
    · by_cases he : e.1 = k
      · exfalso
        apply h.1
        rw [he, List.mem_map]
        exact ⟨(k, v), h1, rfl⟩
      · rw [pyGet, if_neg he]
        exact ih h.2 h1

theorem foldl_pyInsert_mem {α β γ : Type} [DecidableEq α] (key : γ → α) (val : γ → β) :
    ∀ (l : List γ) (m : List (α × β)) (q : α × β),
      q ∈ l.foldl (fun d x => pyInsert d (key x) (val x)) m →
      q ∈ m ∨ ∃ x ∈ l, q = (key x, val x) := by
  intro l
  induction l with
  | nil => intro m q hq; left; simpa using hq
  | cons x xs ih =>
    intro m q hq
    rw [List.foldl_cons] at hq
    rcases ih _ _ hq with h | h
    · rcases mem_pyInsert h with h2 | h2
      · left; exact h2
      · right; exact ⟨x, List.mem_cons_self _ _, h2⟩
    · obtain ⟨y, hy, hq2⟩ := h
      right; exact ⟨y, List.mem_cons_of_mem _ hy, hq2⟩

theorem foldl_pyInsert_nodupKeys {α β γ : Type} [DecidableEq α] (key : γ → α) (val : γ → β) :
    ∀ (l : List γ) (m : List (α × β)), (m.map Prod.fst).Nodup →
      ((l.foldl (fun d x => pyInsert d (key x) (val x)) m).map Prod.fst).Nodup := by
  intro l
  induction l with
  | nil => intro m h; simpa using h
  | cons x xs ih => intro m h; exact ih _ (nodupKeys_pyInsert _ _ h)

/- Characterization of the downstream index built by `get_airtable_records`. -/

theorem aStep_none {pk : Option String} {r : AirtableRecord}
    (hk : recordKey pk r = none) (m : List (Value × AirtableRecord)) :
    aStep pk m r = m := by
  simp only [aStep, hk]

theorem aStep_some_pos {pk : Option String} {r : AirtableRecord} {w : Value}
    (hk : recordKey pk r = some w) (hw : w.truthy = true)
    (m : List (Value × AirtableRecord)) : aStep pk m r = pyInsert m w r := by
  simp only [aStep, hk, if_pos hw]

theorem aStep_some_neg {pk : Option String} {r : AirtableRecord} {w : Value}
    (hk : recordKey pk r = some w) (hw : w.truthy = false)
    (m : List (Value × AirtableRecord)) : aStep pk m r = m := by
  simp only [aStep, hk, hw]
  simp

theorem pyGet_foldl_aStep_isSome (pk : Option String) :
    ∀ (L : List AirtableRecord) (m : List (Value × AirtableRecord)) (v : Value),
      (pyGet (L.foldl (aStep pk) m) v).isSome = true ↔
        (pyGet m v).isSome = true ∨
          ∃ r ∈ L, recordKey pk r = some v ∧ v.truthy = true := by
  intro L
  induction L with
  | nil => intro m v; simp
  | cons r L ih =>
    intro m v
    rw [List.foldl_cons]
    cases hk : recordKey pk r with
    | none =>
      rw [aStep_none hk, ih]
      constructor
      · rintro (h | ⟨r', hr', hkey, htr⟩)
        · left; exact h
        · right; exact ⟨r', List.mem_cons_of_mem _ hr', hkey, htr⟩
      · rintro (h | ⟨r', hr', hkey, htr⟩)
        · left; exact h
        · rcases List.mem_cons.mp hr' with h2 | h2
          · subst h2; rw [hk] at hkey; exact absurd hkey (by simp)
          · right; exact ⟨r', h2, hkey, htr⟩
    | some w =>
      by_cases hw : w.truthy = true
      · rw [aStep_some_pos hk hw, ih, pyGet_pyInsert_isSome]
        constructor
        · rintro ((hvw | h) | ⟨r', hr', hkey, htr⟩)
          · right
            exact ⟨r, List.mem_cons_self _ _, hvw ▸ hk, hvw ▸ hw⟩
          · left; exact h
          · right; exact ⟨r', List.mem_cons_of_mem _ hr', hkey, htr⟩
        · rintro (h | ⟨r', hr', hkey, htr⟩)
          · left; right; exact h
          · rcases List.mem_cons.mp hr' with h2 | h2
            · subst h2
              rw [hk] at hkey
              exact Or.inl (Or.inl (Option.some.inj hkey).symm)
            · right; exact ⟨r', h2, hkey, htr⟩
      · have hw' : w.truthy = false := Bool.eq_false_iff.mpr hw
        rw [aStep_some_neg hk hw', ih]
        constructor
        · rintro (h | ⟨r', hr', hkey, htr⟩)
          · left; exact h
          · right; exact ⟨r', List.mem_cons_of_mem _ hr', hkey, htr⟩
        · rintro (h | ⟨r', hr', hkey, htr⟩)
          · left; exact h
          · rcases List.mem_cons.mp hr' with h2 | h2
            · subst h2
              rw [hk] at hkey
              rw [Option.some.inj hkey] at hw'
              exact Bool.noConfusion (hw'.symm.trans htr)
            · right; exact ⟨r', h2, hkey, htr⟩

theorem index_isSome (pk : Option String) (L : List AirtableRecord) (v : Value) :
    (pyGet (get_airtable_records pk L) v).isSome = true ↔
      ∃ r ∈ L, recordKey pk r = some v ∧ v.truthy = true := by
  unfold get_airtable_records
  rw [pyGet_foldl_aStep_isSome]
  simp [pyGet]

theorem truthy_of_index_isSome {pk : Option String} {L : List AirtableRecord} {v : Value}
    (h : (pyGet (get_airtable_records pk L) v).isSome = true) : v.truthy = true := by
  obtain ⟨r, _, _, ht⟩ := (index_isSome pk L v).mp h
  exact ht

/- Characterization of the create-list built by `missing_records`. -/

theorem mem_foldl_iStep (fm : FieldMapping) (gk : String) (arm : List (Value × AirtableRecord)) :
    ∀ (tmap : List (Value × Issue)) (acc : List RecordData) (x : RecordData),
      x ∈ tmap.foldl (iStep fm gk arm) acc ↔
        x ∈ acc ∨ ∃ kt ∈ tmap,
          truthyRecordOpt (pyGet arm (keyOf gk kt.2)) = false ∧
          x = parse_ticket_to_record fm kt.2 := by
  intro tmap
  induction tmap with
  | nil => intro acc x; simp
  | cons kt tmap ih =>
    intro acc x
    rw [List.foldl_cons, ih]
    unfold iStep
    by_cases h : truthyRecordOpt (pyGet arm (keyOf gk kt.2)) = true
    · rw [if_pos h]
      constructor
      · rintro (hx | ⟨kt', hkt', hcond, hx⟩)
        · left; exact hx
        · right; exact ⟨kt', List.mem_cons_of_mem _ hkt', hcond, hx⟩
      · rintro (hx | ⟨kt', hkt', hcond, hx⟩)
        · left; exact hx
        · rcases List.mem_cons.mp hkt' with h2 | h2
          · subst h2; rw [h] at hcond; exact absurd hcond (by simp)
          · right; exact ⟨kt', h2, hcond, hx⟩
    · rw [if_neg h]
      have h' : truthyRecordOpt (pyGet arm (keyOf gk kt.2)) = false :=
        Bool.eq_false_iff.mpr h
      constructor
      · rintro (hx | ⟨kt', hkt', hcond, hx⟩)
        · rcases List.mem_append.mp hx with h2 | h2
          · left; exact h2
          · right
            exact ⟨kt, List.mem_cons_self _ _, h', List.mem_singleton.mp h2⟩
        · right; exact ⟨kt', List.mem_cons_of_mem _ hkt', hcond, hx⟩
      · rintro (hx | ⟨kt', hkt', hcond, hx⟩)
        · left; exact List.mem_append_left _ hx
        · rcases List.mem_cons.mp hkt' with h2 | h2
          · left
            apply List.mem_append_right
            rw [List.mem_singleton, hx, h2]
          · right; exact ⟨kt', h2, hcond, hx⟩

theorem mem_missing_records (fm : FieldMapping) (gk : String) (pk : Option String)
    (L : List AirtableRecord) :
    ∀ (U : List (Int × List (Value × Issue))) (x : RecordData),
      x ∈ missing_records fm gk pk L U ↔
        ∃ pt ∈ U, ∃ kt ∈ pt.2,
          truthyRecordOpt (pyGet (get_airtable_records pk L) (keyOf gk kt.2)) = false ∧
          x = parse_ticket_to_record fm kt.2 := by
  have aux : ∀ (U : List (Int × List (Value × Issue))) (acc : List RecordData) (x : RecordData),
      x ∈ U.foldl (fun acc pt => pt.2.foldl (iStep fm gk (get_airtable_records pk L)) acc) acc ↔
        x ∈ acc ∨ ∃ pt ∈ U, ∃ kt ∈ pt.2,
          truthyRecordOpt (pyGet (get_airtable_records pk L) (keyOf gk kt.2)) = false ∧
          x = parse_ticket_to_record fm kt.2 := by
    intro U
    induction U with
    | nil => intro acc x; simp
    | cons pt U ih =>
      intro acc x
      rw [List.foldl_cons, ih, mem_foldl_iStep]
      constructor
      · rintro ((hx | ⟨kt, hkt, hcond, hx⟩) | ⟨pt', hpt', hrest⟩)
        · left; exact hx
        · right; exact ⟨pt, List.mem_cons_self _ _, kt, hkt, hcond, hx⟩
        · right; exact ⟨pt', List.mem_cons_of_mem _ hpt', hrest⟩
      · rintro (hx | ⟨pt', hpt', hrest⟩)
        · left; left; exact hx
        · rcases List.mem_cons.mp hpt' with h2 | h2
          · left; right; subst h2; exact hrest
          · right; exact ⟨pt', h2, hrest⟩
  intro U x
  unfold missing_records
  rw [aux]
  simp

theorem missing_records_eq_nil_iff (fm : FieldMapping) (gk : String) (pk : Option String)
    (L : List AirtableRecord) (U : List (Int × List (Value × Issue))) :
    missing_records fm gk pk L U = [] ↔
      ∀ pt ∈ U, ∀ kt ∈ pt.2,
        truthyRecordOpt (pyGet (get_airtable_records pk L) (keyOf gk kt.2)) = true := by
  rw [List.eq_nil_iff_forall_not_mem]
  constructor
  · intro h pt hpt kt hkt
    by_contra hc
    have hc' : truthyRecordOpt (pyGet (get_airtable_records pk L) (keyOf gk kt.2)) = false :=
      Bool.eq_false_iff.mpr hc
    exact h _ ((mem_missing_records fm gk pk L U _).mpr ⟨pt, hpt, kt, hkt, hc', rfl⟩)
  · intro h x hx
    obtain ⟨pt, hpt, kt, hkt, hcond, _⟩ := (mem_missing_records fm gk pk L U x).mp hx
    rw [h pt hpt kt hkt] at hcond
    exact absurd hcond (by simp)

/- Provenance of the upstream snapshot. -/

theorem nodupKeys_projectsDict (projects : List ProjectConfig) :
    ((projectsDict projects).map Prod.fst).Nodup := by
  unfold projectsDict
  exact foldl_pyInsert_nodupKeys (fun p => p.id) (fun p => p.import_after) projects []
    (by simp)

theorem tickets_provenance {gk : String} {projects : List ProjectConfig}
    {issuesOf : Int → List Issue} {pid : Int} {tmap : List (Value × Issue)}
    (h : (pid, tmap) ∈ get_gitlab_tickets gk projects issuesOf) :
    ∃ ia, (pid, ia) ∈ projectsDict projects ∧
      tmap = project_issues gk (ia.getD 0) (issuesOf pid) := by
  unfold get_gitlab_tickets at h
  rcases foldl_pyInsert_mem (fun pe => pe.1)
      (fun pe => project_issues gk (pe.2.getD 0) (issuesOf pe.1))
      (projectsDict projects) [] _ h with h0 | ⟨pe, hpe, heq⟩
  · simp at h0
  · rw [Prod.mk.injEq] at heq
    obtain ⟨h1, h2⟩ := heq
    refine ⟨pe.2, ?_, ?_⟩
    · rw [h1]; exact hpe
    · rw [h2, h1]

theorem issue_provenance {gk : String} {floor : Int} {issues : List Issue}
    {k : Value} {t : Issue} (h : (k, t) ∈ project_issues gk floor issues) :
    floor < t.iid ∧ t ∈ issues := by
  unfold project_issues at h
  rcases foldl_pyInsert_mem (fun i => keyOf gk i) (fun i => i)
      (issues.filter (fun i => floor < i.iid)) [] _ h with h0 | ⟨i, hi, heq⟩
  · simp at h0
  · rw [Prod.mk.injEq] at heq
    obtain ⟨_, h2⟩ := heq
    have := List.mem_filter.mp hi
    rw [h2]
    exact ⟨by simpa using this.2, this.1⟩

/- Lemmas about `parse_ticket_to_record`. -/

theorem pStep_none {t : Issue} {e : String × Option String} (he : e.2 = none)
    (rd : RecordData) : pStep t rd e = rd := by
  simp only [pStep, he]

theorem pStep_some_empty {t : Issue} {e : String × Option String} (he : e.2 = some "")
    (rd : RecordData) : pStep t rd e = rd := by
  simp [pStep, he]

theorem pStep_some {t : Issue} {e : String × Option String} {s : String}
    (he : e.2 = some s) (hs : s ≠ "") (rd : RecordData) :
    pStep t rd e = pyInsert rd s ((t.getattr e.1).getD Value.vNull) := by
  simp only [pStep, he, if_neg hs]

theorem parse_foldl_frame (t : Issue) (a : String) :
    ∀ (entries : List (String × Option String)) (rd : RecordData),
      (∀ e ∈ entries, e.2 ≠ some a) →
      pyGet (entries.foldl (pStep t) rd) a = pyGet rd a := by
  intro entries
  induction entries with
  | nil => intro rd _; rfl
  | cons e es ih =>
    intro rd h
    rw [List.foldl_cons, ih _ (fun e' he' => h e' (List.mem_cons_of_mem _ he'))]
    cases he : e.2 with
    | none => rw [pStep_none he]
    | some s =>
      by_cases hs : s = ""
      · subst hs; rw [pStep_some_empty he]
      · rw [pStep_some he hs]
        refine pyGet_pyInsert_ne rd _ ?_
        intro haa
        exact h e (List.mem_cons_self _ _) (by rw [he, haa])

theorem parse_isSome_aux (t : Issue) (a : String) :
    ∀ (entries : List (String × Option String)) (rd : RecordData),
      (pyGet (entries.foldl (pStep t) rd) a).isSome = true ↔
        (pyGet rd a).isSome = true ∨ ∃ e ∈ entries, e.2 = some a ∧ a ≠ "" := by
  intro entries
  induction entries with
  | nil => intro rd; simp
  | cons e es ih =>
    intro rd
    rw [List.foldl_cons, ih]
    cases he : e.2 with
    | none =>
      rw [pStep_none he]
      constructor
      · rintro (h | ⟨e', he', h2⟩)
        · left; exact h
        · right; exact ⟨e', List.mem_cons_of_mem _ he', h2⟩
      · rintro (h | ⟨e', he', h2⟩)
        · left; exact h
        · rcases List.mem_cons.mp he' with h3 | h3
          · subst h3; rw [he] at h2; exact absurd h2.1 (by simp)
          · right; exact ⟨e', h3, h2⟩
    | some s =>
      by_cases hs : s = ""
      · subst hs
        rw [pStep_some_empty he]
        constructor
        · rintro (h | ⟨e', he', h2⟩)
          · left; exact h
          · right; exact ⟨e', List.mem_cons_of_mem _ he', h2⟩
        · rintro (h | ⟨e', he', h2⟩)
          · left; exact h
          · rcases List.mem_cons.mp he' with h3 | h3
            · subst h3
              rw [he] at h2
              exact absurd (Option.some.inj h2.1).symm h2.2
            · right; exact ⟨e', h3, h2⟩
      · rw [pStep_some he hs, pyGet_pyInsert_isSome]
        constructor
        · rintro ((has | h) | ⟨e', he', h2⟩)
          · right
            refine ⟨e, List.mem_cons_self _ _, ?_, ?_⟩
            · rw [he, has]
            · rw [has]; exact hs
          · left; exact h
          · right; exact ⟨e', List.mem_cons_of_mem _ he', h2⟩
        · rintro (h | ⟨e', he', h2⟩)
          · left; right; exact h
          · rcases List.mem_cons.mp he' with h3 | h3
            · subst h3
              rw [he] at h2
              exact Or.inl (Or.inl (Option.some.inj h2.1).symm)
            · right; exact ⟨e', h3, h2⟩

/-- The key slot of a parsed record: under a recognized key selection whose
downstream name `a` is non-empty and not reused by another mapping entry,
the created record holds the issue's own key value at `a`. -/
theorem pyGet_parse_key {fm : FieldMapping} {sel : Value} {gk a : String} (t : Issue)
    (hsel : gitlab_primary_key sel = some gk)
    (hpk : airtable_primary_key fm sel = some a)
    (ha : a ≠ "")
    (huniq : ∀ e ∈ gitlab_to_airtable_field_map fm, e.2 = some a → e.1 = gk) :
    pyGet (parse_ticket_to_record fm t) a = some (keyOf gk t) := by
  cases sel with
  | vNull => simp [gitlab_primary_key] at hsel
  | vBool b => simp [gitlab_primary_key] at hsel
  | vInt n => simp [gitlab_primary_key] at hsel
  | vList xs => simp [gitlab_primary_key] at hsel
  | vStr s =>
    by_cases h1 : s = "ticket_number"
    · subst h1
      have hsel' : some "iid" = some gk := hsel
      obtain rfl : "iid" = gk := Option.some.inj hsel'
      have hfm : fm.ticket_number = some a := hpk
      have hmap : gitlab_to_airtable_field_map fm =
          ("title", fm.title) :: ("iid", some a) ::
            [("web_url", fm.url), ("labels", fm.labels),
             ("weight", fm.weight), ("milestone", fm.milestone)] := by
        simp only [gitlab_to_airtable_field_map, hfm]
      have hrest : ∀ e ∈ [("web_url", fm.url), ("labels", fm.labels),
          ("weight", fm.weight), ("milestone", fm.milestone)], e.2 ≠ some a := by
        intro e he heq
        have hmem : e ∈ gitlab_to_airtable_field_map fm := by
          rw [hmap]
          exact List.mem_cons_of_mem _ (List.mem_cons_of_mem _ he)
        have hfst := huniq e hmem heq
        simp at he
        rcases he with rfl | rfl | rfl | rfl
        · have hc : "web_url" = "iid" := hfst
          exact absurd hc (by decide)
        · have hc : "labels" = "iid" := hfst
          exact absurd hc (by decide)
        · have hc : "weight" = "iid" := hfst
          exact absurd hc (by decide)
        · have hc : "milestone" = "iid" := hfst
          exact absurd hc (by decide)
      simp only [parse_ticket_to_record]
      rw [hmap, List.foldl_cons, List.foldl_cons]
      have hframe := parse_foldl_frame t a [("web_url", fm.url), ("labels", fm.labels),
          ("weight", fm.weight), ("milestone", fm.milestone)]
      rw [hframe _ hrest, pStep_some rfl ha, pyGet_pyInsert_self]
      rfl
    · by_cases h2 : s = "url"
      · subst h2
        have hsel' : some "web_url" = some gk := hsel
        obtain rfl : "web_url" = gk := Option.some.inj hsel'
        have hfm : fm.url = some a := hpk
        have hmap : gitlab_to_airtable_field_map fm =
            ("title", fm.title) :: ("iid", fm.ticket_number) :: ("web_url", some a) ::
              [("labels", fm.labels), ("weight", fm.weight), ("milestone", fm.milestone)] := by
          simp only [gitlab_to_airtable_field_map, hfm]
        have hrest : ∀ e ∈ [("labels", fm.labels), ("weight", fm.weight),
            ("milestone", fm.milestone)], e.2 ≠ some a := by
          intro e he heq
          have hmem : e ∈ gitlab_to_airtable_field_map fm := by
            rw [hmap]
            exact List.mem_cons_of_mem _
              (List.mem_cons_of_mem _ (List.mem_cons_of_mem _ he))
          have hfst := huniq e hmem heq
          simp at he
          rcases he with rfl | rfl | rfl
          · have hc : "labels" = "web_url" := hfst
            exact absurd hc (by decide)
          · have hc : "weight" = "web_url" := hfst
            exact absurd hc (by decide)
          · have hc : "milestone" = "web_url" := hfst
            exact absurd hc (by decide)
        simp only [parse_ticket_to_record]
        rw [hmap, List.foldl_cons, List.foldl_cons, List.foldl_cons]
        have hframe := parse_foldl_frame t a [("labels", fm.labels), ("weight", fm.weight),
            ("milestone", fm.milestone)]
        rw [hframe _ hrest, pStep_some rfl ha, pyGet_pyInsert_self]
        rfl
      · exfalso
        have hnone : gitlab_primary_key (Value.vStr s) = none := by
          simp [gitlab_primary_key, primary_key_map, pyGet, Ne.symm h1, Ne.symm h2]
        rw [hnone] at hsel
        exact absurd hsel (by simp)

/- Unfolding lemmas for `sync`. -/

theorem sync_created (fm : FieldMapping) (gk : String) (pk : Option String)
    (L : List AirtableRecord) (projects : List ProjectConfig)
    (issuesOf : Int → List Issue) :
    (sync fm gk pk L projects issuesOf).created =
      missing_records fm gk pk L (get_gitlab_tickets gk projects issuesOf) := by
  simp only [sync]
  split <;> rfl

theorem sync_wrote_eq (fm : FieldMapping) (gk : String) (pk : Option String)
    (L : List AirtableRecord) (projects : List ProjectConfig)
    (issuesOf : Int → List Issue) :
    (sync fm gk pk L projects issuesOf).wrote =
      decide (0 < (missing_records fm gk pk L (get_gitlab_tickets gk projects issuesOf)).length) := by
  simp only [sync]
  split
  · rename_i h; exact (decide_eq_true h).symm
  · rename_i h; exact (decide_eq_false h).symm

theorem truthyRecordOpt_eq_isSome (o : Option AirtableRecord) :
    truthyRecordOpt o = o.isSome := by
  cases o <;> rfl

/-- A record whose key test fails contributes nothing to the index. -/
theorem get_airtable_records_skip (pk : Option String) (r : AirtableRecord)
    (hr : recordKeyTruthy pk r = false) (L1 L2 : List AirtableRecord) :
    get_airtable_records pk (L1 ++ r :: L2) = get_airtable_records pk (L1 ++ L2) := by
  unfold get_airtable_records
  have hstep : aStep pk (List.foldl (aStep pk) [] L1) r = List.foldl (aStep pk) [] L1 := by
    cases hk : recordKey pk r with
    | none => exact aStep_none hk _
    | some v =>
      have hv : v.truthy = false := by
        simp only [recordKeyTruthy, hk] at hr
        exact hr
      exact aStep_some_neg hk hv _
  rw [List.foldl_append, List.foldl_cons, hstep, ← List.foldl_append]

theorem missing_records_congr {fm : FieldMapping} {gk : String} {pk : Option String}
    {L L' : List AirtableRecord} {U : List (Int × List (Value × Issue))}
    (h : get_airtable_records pk L = get_airtable_records pk L') :
    missing_records fm gk pk L U = missing_records fm gk pk L' U := by
  unfold missing_records
  rw [h]

theorem createLoop_take (ok : Nat → Bool) :
    ∀ (rs : List RecordData) (i : Nat), ∃ kk, kk ≤ rs.length ∧
      (createLoop ok i rs).1 = rs.take kk ∧
      (createLoop ok i rs).2 = decide (kk = rs.length) := by
  intro rs
  induction rs with
  | nil => intro i; exact ⟨0, by simp [createLoop]⟩
  | cons r rs ih =>
    intro i
    by_cases h : ok i = true
    · obtain ⟨kk, hk, h1, h2⟩ := ih (i + 1)
      refine ⟨kk + 1, ?_, ?_, ?_⟩
      · simpa using Nat.succ_le_succ hk
      · simp only [createLoop, if_pos h]
        rw [h1, List.take_succ_cons]
      · simp only [createLoop, if_pos h]
        rw [h2, List.length_cons]
        by_cases hkk : kk = rs.length
        · rw [decide_eq_true hkk, decide_eq_true (by omega : kk + 1 = rs.length + 1)]
        · rw [decide_eq_false hkk, decide_eq_false (by omega : ¬(kk + 1 = rs.length + 1))]
    · have h' : ok i = false := Bool.eq_false_iff.mpr h
      refine ⟨0, Nat.zero_le _, ?_, ?_⟩
      · simp [createLoop, h']
      · rw [List.length_cons, decide_eq_false (by omega : ¬(0 = rs.length + 1))]
        simp [createLoop, h']

/-- C2 (corrected): `create_airtable_records` issues one `table.create` call
per record, in list order; on any run the downstream store receives exactly
a prefix of the create-list — all of it exactly when every call succeeds,
a proper prefix (not "all or none") when a call fails mid-list. -/
theorem C2_sequential_prefix_writes (ok : Nat → Bool) (rs : List RecordData) :
    ∃ kk, kk ≤ rs.length ∧ (create_airtable_records ok rs).1 = rs.take kk ∧
      (create_airtable_records ok rs).2 = decide (kk = rs.length) :=
  createLoop_take ok rs 0

/-- C2 counterexample: with a two-record create-list whose second create
call fails, exactly one record is written — neither all records nor none,
refuting the claimed single-batch all-or-nothing submission. -/
theorem C2_not_batch_counterexample :
    (create_airtable_records (fun i => i == 0)
        [[("A", Value.vInt 1)], [("A", Value.vInt 2)]]).1 ≠
      [[("A", Value.vInt 1)], [("A", Value.vInt 2)]] ∧
    (create_airtable_records (fun i => i == 0)
        [[("A", Value.vInt 1)], [("A", Value.vInt 2)]]).1 ≠ [] ∧
    (create_airtable_records (fun i => i == 0)
        [[("A", Value.vInt 1)], [("A", Value.vInt 2)]]).2 = false := by
  decide

/-- C6 (confirmed): a parsed record contains a downstream field name if and
only if some entry of the field map carries it as a non-empty downstream
name — entries with empty or absent downstream names are omitted entirely,
never written as null, and no other keys appear. -/
theorem C6_unmapped_fields_omitted (fm : FieldMapping) (t : Issue) (k : String) :
    (pyGet (parse_ticket_to_record fm t) k).isSome = true ↔
      ∃ e ∈ gitlab_to_airtable_field_map fm, e.2 = some k ∧ k ≠ "" := by
  unfold parse_ticket_to_record
  rw [parse_isSome_aux]
  simp [pyGet]

/-- C10 (confirmed): `gitlab_to_airtable_field_map` always has exactly six
entries, so its values view is never empty and the configuration check can
never raise the field-mapping `ConfigurationError`, whatever the
configuration holds. -/
theorem C10_field_map_check_unreachable (c : Config) :
    configCheck c ≠ some "Missing GitLab to Airtable field mapping in config.json" := by
  intro h
  unfold configCheck at h
  split at h
  · exact absurd h (by decide)
  · split at h
    · exact absurd h (by decide)
    · split at h
      · exact absurd h (by decide)
      · split at h
        · exact absurd h (by decide)
        · split at h
          · exact absurd h (by decide)
          · split at h
            · rename_i hguard
              exact absurd hguard (by simp [fieldMapValues, gitlab_to_airtable_field_map])
            · split at h
              · exact absurd h (by decide)
              · exact absurd h (by simp)

/-- C3 (code bug): with an unrecognized key-selection literal the startup
checks detect nothing (`configCheck` is `none`) and the run proceeds to
both network fetches before crashing; with a missing Airtable api key the
`ConfigurationError` is raised but only logged, and the run still performs
both network fetches. The claimed fail-fast abort before any network call
does not happen. -/
theorem C3_config_error_only_logged :
    (configCheck cfgBadSel = none ∧
      moduleMain cfgBadSel [] issC =
        ([Event.fetchAirtable, Event.fetchGitlab], some "TypeError")) ∧
    (configCheck cfgNoKey = some "Missing Airtable api key in config,json" ∧
      moduleMain cfgNoKey [] (fun _ => []) =
        ([Event.logError "Missing Airtable api key in config,json",
          Event.fetchAirtable, Event.fetchGitlab], none)) := by
  decide

/-- C7 (confirmed): when every upstream issue's key value is already
present in the downstream index, the create-list is empty, no write call is
issued and the downstream store is left unchanged. -/
theorem C7_empty_diff_no_write (fm : FieldMapping) (gk : String) (pk : Option String)
    (L : List AirtableRecord) (projects : List ProjectConfig) (issuesOf : Int → List Issue)
    (h : ∀ pt ∈ get_gitlab_tickets gk projects issuesOf, ∀ kt ∈ pt.2,
        truthyRecordOpt (pyGet (get_airtable_records pk L) (keyOf gk kt.2)) = true) :
    (sync fm gk pk L projects issuesOf).created = [] ∧
    (sync fm gk pk L projects issuesOf).wrote = false ∧
    sync_final_downstream fm gk pk L projects issuesOf = L := by
  have hmr : missing_records fm gk pk L (get_gitlab_tickets gk projects issuesOf) = [] :=
    (missing_records_eq_nil_iff fm gk pk L _).mpr h
  have hc : (sync fm gk pk L projects issuesOf).created = [] := by
    rw [sync_created, hmr]
  have hw : (sync fm gk pk L projects issuesOf).wrote = false := by
    rw [sync_wrote_eq, hmr]
    rfl
  refine ⟨hc, hw, ?_⟩
  simp [sync_final_downstream, hw]

/-- C7 witness: a downstream store already holding the only upstream
ticket's key leads to an unchanged store and no write. -/
theorem C7_empty_diff_no_write_witness :
    (sync fm1 "iid" (some "T") [rT7] [⟨1, none⟩] iss1).created = [] ∧
    (sync fm1 "iid" (some "T") [rT7] [⟨1, none⟩] iss1).wrote = false ∧
    sync_final_downstream fm1 "iid" (some "T") [rT7] [⟨1, none⟩] iss1 = [rT7] :=
  C7_empty_diff_no_write fm1 "iid" (some "T") [rT7] [⟨1, none⟩] iss1 (by decide)

/-- C8 (confirmed): a downstream record whose configured key field is
absent or falsy is never placed in the index, so removing it from the
listing changes neither the index nor any create-list: it can never match
an upstream issue nor suppress a creation. -/
theorem C8_unkeyed_record_invisible (pk : Option String) (r : AirtableRecord)
    (L1 L2 : List AirtableRecord) (hr : recordKeyTruthy pk r = false) :
    get_airtable_records pk (L1 ++ r :: L2) = get_airtable_records pk (L1 ++ L2) ∧
    ∀ (fm : FieldMapping) (gk : String) (U : List (Int × List (Value × Issue))),
      missing_records fm gk pk (L1 ++ r :: L2) U = missing_records fm gk pk (L1 ++ L2) U := by
  have h := get_airtable_records_skip pk r hr L1 L2
  exact ⟨h, fun fm gk U => missing_records_congr h⟩

/-- C8 witness: a record whose key field holds the empty string is
invisible to the index and to reconciliation. -/
theorem C8_unkeyed_record_invisible_witness :
    get_airtable_records (some "T") ([] ++ rEmptyKey :: [rT7]) =
      get_airtable_records (some "T") ([] ++ [rT7]) ∧
    ∀ (fm : FieldMapping) (gk : String) (U : List (Int × List (Value × Issue))),
      missing_records fm gk (some "T") ([] ++ rEmptyKey :: [rT7]) U =
        missing_records fm gk (some "T") ([] ++ [rT7]) U :=
  C8_unkeyed_record_invisible (some "T") rEmptyKey [] [rT7] (by decide)

/-- C9 (confirmed): both the index builder and the reconciliation lookup
test the key by truthiness: a downstream record whose key field holds any
falsy value (0, the empty string, the empty list, false — all falsy) is
excluded from the index exactly as if absent, and an upstream snapshot
ticket whose key value is falsy is added to the create-list whatever the
downstream listing holds. -/
theorem C9_truthiness_semantics (pk : Option String) (v : Value) (r : AirtableRecord)
    (L1 L2 L : List AirtableRecord) (fm : FieldMapping) (gk : String)
    (projects : List ProjectConfig) (issuesOf : Int → List Issue)
    (pid : Int) (tmap : List (Value × Issue)) (k : Value) (t : Issue)
    (hrv : recordKey pk r = some v) (hv : v.truthy = false)
    (hU : (pid, tmap) ∈ get_gitlab_tickets gk projects issuesOf)
    (ht : (k, t) ∈ tmap)
    (htf : (keyOf gk t).truthy = false) :
    get_airtable_records pk (L1 ++ r :: L2) = get_airtable_records pk (L1 ++ L2) ∧
    parse_ticket_to_record fm t ∈
      missing_records fm gk pk L (get_gitlab_tickets gk projects issuesOf) ∧
    Value.truthy (.vInt 0) = false ∧ Value.truthy (.vStr "") = false ∧
    Value.truthy (.vList []) = false ∧ Value.truthy (.vBool false) = false := by
  refine ⟨?_, ?_, by decide, by decide, by decide, by decide⟩
  · apply get_airtable_records_skip
    simp only [recordKeyTruthy, hrv]
    exact hv
  · rw [mem_missing_records]
    refine ⟨(pid, tmap), hU, (k, t), ht, ?_, rfl⟩
    have hnone : pyGet (get_airtable_records pk L) (keyOf gk t) = none := by
      cases hg : pyGet (get_airtable_records pk L) (keyOf gk t) with
      | none => rfl
      | some r' =>
        exfalso
        have hsome : (pyGet (get_airtable_records pk L) (keyOf gk t)).isSome = true := by
          rw [hg]; rfl
        exact Bool.noConfusion (htf.symm.trans (truthy_of_index_isSome hsome))
    rw [hnone]
    rfl

/-- C9 witness: a record with key value 0 is invisible to the index, and a
ticket whose url key is the empty string is re-created against the empty
downstream store. -/
theorem C9_truthiness_semantics_witness :
    get_airtable_records (some "T") ([] ++ rZeroKey :: []) =
      get_airtable_records (some "T") ([] ++ []) ∧
    parse_ticket_to_record fmU tEmptyUrl ∈
      missing_records fmU "web_url" (some "T") []
        (get_gitlab_tickets "web_url" [⟨1, none⟩] issU) ∧
    Value.truthy (.vInt 0) = false ∧ Value.truthy (.vStr "") = false ∧
    Value.truthy (.vList []) = false ∧ Value.truthy (.vBool false) = false :=
  C9_truthiness_semantics (some "T") (.vInt 0) rZeroKey [] [] [] fmU "web_url"
    [⟨1, none⟩] issU 1 [(.vStr "", tEmptyUrl)] (.vStr "") tEmptyUrl
    (by decide) (by decide) (by decide) (by decide) (by decide)

/-- C5 (confirmed): every ticket placed in a project's snapshot has an
identifier strictly greater than that project's floor value (`import_after`
with default 0), whatever the key selection; and every create-list entry is
the parse of such a snapshot ticket — so an issue with identifier at or
below the floor never appears in the snapshot or the create-list. -/
theorem C5_strict_floor_filter (fm : FieldMapping) (gk : String) (pk : Option String)
    (L : List AirtableRecord) (projects : List ProjectConfig) (issuesOf : Int → List Issue)
    (pid : Int) (tmap : List (Value × Issue)) (ia : Option Int) (k : Value) (t : Issue)
    (hU : (pid, tmap) ∈ get_gitlab_tickets gk projects issuesOf)
    (hia : pyGet (projectsDict projects) pid = some ia)
    (ht : (k, t) ∈ tmap) :
    ia.getD 0 < t.iid ∧
    ∀ x ∈ missing_records fm gk pk L (get_gitlab_tickets gk projects issuesOf),
      ∃ pid' tmap' k' t', (pid', tmap') ∈ get_gitlab_tickets gk projects issuesOf ∧
        (k', t') ∈ tmap' ∧
        (∀ ia', pyGet (projectsDict projects) pid' = some ia' → ia'.getD 0 < t'.iid) ∧
        x = parse_ticket_to_record fm t' := by
  constructor
  · obtain ⟨ia2, hmem, htm⟩ := tickets_provenance hU
    have h2 : pyGet (projectsDict projects) pid = some ia2 :=
      pyGet_eq_some_of_mem (nodupKeys_projectsDict projects) hmem
    rw [hia] at h2
    obtain rfl := Option.some.inj h2
    rw [htm] at ht
    exact (issue_provenance ht).1
  · intro x hx
    obtain ⟨⟨pid', tmap'⟩, hpt, ⟨k', t'⟩, hkt, _, hxeq⟩ :=
      (mem_missing_records fm gk pk L _ x).mp hx
    obtain ⟨ia2, hmem, htm⟩ := tickets_provenance hpt
    refine ⟨pid', tmap', k', t', hpt, hkt, ?_, hxeq⟩
    intro ia' hia'
    have h2 : pyGet (projectsDict projects) pid' = some ia2 :=
      pyGet_eq_some_of_mem (nodupKeys_projectsDict projects) hmem
    rw [hia'] at h2
    obtain rfl := Option.some.inj h2
    rw [htm] at hkt
    exact (issue_provenance hkt).1

/-- C5 witness: with floor 5 and issues 3 and 9, only issue 9 enters the
snapshot, and the floor bound holds along with the create-list provenance. -/
theorem C5_strict_floor_filter_witness :
    (some 5 : Option Int).getD 0 < t9.iid ∧
    ∀ x ∈ missing_records fm1 "iid" (some "T") []
        (get_gitlab_tickets "iid" projects5 iss5),
      ∃ pid' tmap' k' t', (pid', tmap') ∈ get_gitlab_tickets "iid" projects5 iss5 ∧
        (k', t') ∈ tmap' ∧
        (∀ ia', pyGet (projectsDict projects5) pid' = some ia' → ia'.getD 0 < t'.iid) ∧
        x = parse_ticket_to_record fm1 t' :=
  C5_strict_floor_filter fm1 "iid" (some "T") [] projects5 iss5 1 [(.vInt 9, t9)]
    (some 5) (.vInt 9) t9 (by decide) (by decide) (by decide)

/-- C4 (corrected, amended): under a recognized key selection whose
downstream key name is non-empty and is not reused by any other field-map
entry, every create-list record is the parse of some upstream issue and
holds that issue's key value under the downstream key name. -/
theorem C4_key_value_preserved (fm : FieldMapping) (sel : Value) (gk a : String)
    (L : List AirtableRecord) (projects : List ProjectConfig) (issuesOf : Int → List Issue)
    (hsel : gitlab_primary_key sel = some gk)
    (hpk : airtable_primary_key fm sel = some a)
    (ha : a ≠ "")
    (huniq : ∀ e ∈ gitlab_to_airtable_field_map fm, e.2 = some a → e.1 = gk) :
    ∀ x ∈ (sync fm gk (some a) L projects issuesOf).created,
      ∃ pid t, t ∈ issuesOf pid ∧ x = parse_ticket_to_record fm t ∧
        pyGet x a = some (keyOf gk t) := by
  intro x hx
  rw [sync_created] at hx
  obtain ⟨⟨pid, tmap⟩, hpt, ⟨k, t⟩, hkt, _, hxeq⟩ :=
    (mem_missing_records fm gk (some a) L _ x).mp hx
  obtain ⟨ia, hmem, htm⟩ := tickets_provenance hpt
  rw [htm] at hkt
  obtain ⟨_, htIn⟩ := issue_provenance hkt
  refine ⟨pid, t, htIn, hxeq, ?_⟩
  rw [hxeq]
  exact pyGet_parse_key t hsel hpk ha huniq

/-- C4 witness: under the ticket-number selection with downstream key name
`T`, the one record created from issue `t7` carries the source issue's
`iid` at `T`. -/
theorem C4_key_value_preserved_witness :
    ∃ pid t, t ∈ iss1 pid ∧
      ([("Title", Value.vStr "Seven"), ("T", Value.vInt 7),
        ("URL", Value.vStr "https://gl.example/i/7")] : RecordData) =
          parse_ticket_to_record fm1 t ∧
      pyGet [("Title", Value.vStr "Seven"), ("T", Value.vInt 7),
        ("URL", Value.vStr "https://gl.example/i/7")] "T" = some (keyOf "iid" t) :=
  C4_key_value_preserved fm1 (Value.vStr "ticket_number") "iid" "T" [] [⟨1, none⟩] iss1
    (by decide) (by decide) (by decide) (by decide)
    [("Title", Value.vStr "Seven"), ("T", Value.vInt 7),
     ("URL", Value.vStr "https://gl.example/i/7")]
    (by decide)

/-- C4 counterexample: when the milestone entry reuses the downstream key
name `K`, the later dict assignment in `parse_ticket_to_record` overwrites
the key slot: the created record holds the milestone value, not the
issue's key value, under the downstream key name. -/
theorem C4_key_overwritten_counterexample :
    (sync fmC "iid" (some "K") [] [⟨1, none⟩] issC).created =
      [[("K", Value.vStr "M1")]] ∧
    keyOf "iid" tC = Value.vInt 7 ∧
    pyGet [("K", Value.vStr "M1")] "K" ≠ some (keyOf "iid" tC) := by
  decide

/-- C1 (corrected, amended): under a recognized key selection whose
downstream key name is non-empty and not reused by another field-map entry,
and when every upstream issue's key value is truthy, re-running `sync` with
an unchanged upstream against the downstream listing extended by the
records created in the first run yields an empty create-list. -/
theorem C1_rerun_creates_nothing (fm : FieldMapping) (sel : Value) (gk a : String)
    (L : List AirtableRecord) (projects : List ProjectConfig) (issuesOf : Int → List Issue)
    (hsel : gitlab_primary_key sel = some gk)
    (hpk : airtable_primary_key fm sel = some a)
    (ha : a ≠ "")
    (huniq : ∀ e ∈ gitlab_to_airtable_field_map fm, e.2 = some a → e.1 = gk)
    (htruthy : ∀ pid, ∀ t ∈ issuesOf pid, (keyOf gk t).truthy = true) :
    (sync fm gk (some a)
        (L ++ (sync fm gk (some a) L projects issuesOf).created.map AirtableRecord.mk)
        projects issuesOf).created = [] := by
  rw [sync_created, missing_records_eq_nil_iff]
  intro pt hpt kt hkt
  obtain ⟨pid, tmap⟩ := pt
  obtain ⟨k, t⟩ := kt
  obtain ⟨ia, hmem, htm⟩ := tickets_provenance hpt
  have hkt' : (k, t) ∈ project_issues gk (ia.getD 0) (issuesOf pid) := by
    rw [← htm]; exact hkt
  obtain ⟨_, htIn⟩ := issue_provenance hkt'
  have htr : (keyOf gk t).truthy = true := htruthy pid t htIn
  have hiso : (pyGet (get_airtable_records (some a)
      (L ++ (sync fm gk (some a) L projects issuesOf).created.map AirtableRecord.mk))
      (keyOf gk t)).isSome = true := by
    rw [index_isSome]
    by_cases hfirst :
        truthyRecordOpt (pyGet (get_airtable_records (some a) L) (keyOf gk t)) = true
    · rw [truthyRecordOpt_eq_isSome] at hfirst
      obtain ⟨r, hrL, hkey, htr2⟩ := (index_isSome _ _ _).mp hfirst
      exact ⟨r, List.mem_append_left _ hrL, hkey, htr2⟩
    · have hcond :
          truthyRecordOpt (pyGet (get_airtable_records (some a) L) (keyOf gk t)) = false :=
        Bool.eq_false_iff.mpr hfirst
      have hin : parse_ticket_to_record fm t ∈
          (sync fm gk (some a) L projects issuesOf).created := by
        rw [sync_created, mem_missing_records]
        exact ⟨(pid, tmap), hpt, (k, t), hkt, hcond, rfl⟩
      refine ⟨AirtableRecord.mk (parse_ticket_to_record fm t), ?_, ?_, htr⟩
      · exact List.mem_append_right _ (List.mem_map_of_mem _ hin)
      · show pyGet (parse_ticket_to_record fm t) a = some (keyOf gk t)
        exact pyGet_parse_key t hsel hpk ha huniq
  rw [truthyRecordOpt_eq_isSome]
  exact hiso

/-- C1 witness: with the ticket-number key mapped to `T` and a single
upstream issue, the second run against the extended downstream creates
nothing. -/
theorem C1_rerun_creates_nothing_witness :
    (sync fm1 "iid" (some "T")
        ([] ++ (sync fm1 "iid" (some "T") [] [⟨1, none⟩] iss1).created.map AirtableRecord.mk)
        [⟨1, none⟩] iss1).created = [] :=
  C1_rerun_creates_nothing fm1 (Value.vStr "ticket_number") "iid" "T" [] [⟨1, none⟩] iss1
    (by decide) (by decide) (by decide) (by decide)
    (by
      intro pid t ht
      simp only [iss1, List.mem_singleton] at ht
      subst ht
      decide)

/-- C1 counterexample: with the url selection and an issue whose url is the
empty string (a falsy key value), the record created in the first run is
never indexed, so the second run — on the downstream listing extended by
the first run's created records — creates it again: the second create-list
is not empty. -/
theorem C1_rerun_recreates_counterexample :
    (sync fmU "web_url" (some "URL")
        ([] ++ (sync fmU "web_url" (some "URL") [] [⟨1, none⟩] issU).created.map AirtableRecord.mk)
        [⟨1, none⟩] issU).created ≠ [] := by
  decide

end GitlabAirtableSync
